import Mathlib

/-!
Verification of the financial-data-analyzer core: a shallow embedding of the
amount/date normalizers (`src/src/phase2_parser.py`, `src/src/core/format_parser.py`,
`src/src/financial_analyzer.py`), the column type detector
(`src/src/core/type_detector.py`), the two reconciliation routines
(`src/src/phase3_reconciler.py`, `src/src/financial_analyzer.py`) and the storage
backends (`src/src/core/data_storage.py`), together with theorems settling the
spec claims about them.

Modelling conventions, used throughout:
* Python `float` values are modelled as `ℚ` (exact arithmetic; binary rounding of
  decimal literals is idealized away).
* Calendar dates are modelled as `Int` day numbers, so `(a - b).days` of two
  `datetime`s at day granularity is `a - b` here.
* Cell values coming from the workbook-loading collaborator are strings or, for
  date cells, already-native dates (`Option Int`, `none` for a null/NaN cell),
  matching section 6 of the spec (cell = null | string | number | native date).
* String manipulation is done on `List Char`; Python semantics of the string
  methods actually reached by the embedded code paths are reproduced exactly for
  the ASCII-plus-currency-symbol alphabet the code operates on.
-/

/-- Python `str.lower()` (per-character lowercasing; the embedded inputs are
ASCII words plus currency symbols, on which `Char.toLower` agrees with Python). -/
def lowerStr (l : List Char) : List Char := l.map Char.toLower

/-- Helper for `splitWs`: accumulate the current token (reversed) while scanning. -/
def splitWsAux : List Char → List Char → List (List Char)
  | [], acc => if acc.isEmpty then [] else [acc.reverse]
  | c :: t, acc =>
    if c.isWhitespace then
      (if acc.isEmpty then splitWsAux t [] else acc.reverse :: splitWsAux t [])
    else splitWsAux t (c :: acc)

/-- Python `str.split()` with no argument: split on whitespace runs, dropping
empty pieces. -/
def splitWs (l : List Char) : List (List Char) := splitWsAux l []

/-- Python `str.strip()`: drop whitespace from both ends. -/
def trimWs (l : List Char) : List Char :=
  ((l.dropWhile Char.isWhitespace).reverse.dropWhile Char.isWhitespace).reverse

/-- Helper for `removeAll`, structurally recursive on a fuel argument (the fuel
starts at the list length, which bounds the number of scanning steps). -/
def removeAllGo (pat : List Char) : ℕ → List Char → List Char
  | 0, l => l
  | _ + 1, [] => []
  | fuel + 1, c :: rest =>
    if pat.isEmpty then c :: rest
    else if pat.isPrefixOf (c :: rest) then removeAllGo pat fuel (rest.drop (pat.length - 1))
    else c :: removeAllGo pat fuel rest

/-- Python `str.replace(pat, "")` for a nonempty `pat`: remove every (leftmost,
non-overlapping) occurrence. For an empty `pat` the list is returned unchanged
(the embedded code never calls it that way). -/
def removeAll (pat : List Char) (l : List Char) : List Char :=
  removeAllGo pat l.length l

/-- Python substring test `needle in hay`. -/
def containsSub (pat : List Char) : List Char → Bool
  | [] => pat.isEmpty
  | c :: rest => pat.isPrefixOf (c :: rest) || containsSub pat rest

/-- Numeric value of a list of decimal digit characters (most significant first). -/
def decVal (ds : List Char) : ℕ := ds.foldl (fun a c => 10 * a + (c.toNat - 48)) 0

/-- Model of Python's `float(s)` builtin on the character alphabets reachable in
the embedded code (digits, `.`, `,`, `-`, `+`, letters): optional sign, a
mantissa of digits containing at most one dot and at least one digit, and an
optional exponent. Any other character (for instance a comma left in the
string) makes the conversion fail, exactly as `float` raises `ValueError`.
`inf`/`nan`/underscore literals are not modelled; no embedded input produces
them. -/
def parseFloat (l : List Char) : Option ℚ :=
  let sgn : ℚ := match l with
    | '-' :: _ => -1
    | _ => 1
  let l1 : List Char := match l with
    | '-' :: t => t
    | '+' :: t => t
    | _ => l
  let ip := l1.takeWhile Char.isDigit
  let r1 := l1.dropWhile Char.isDigit
  let fp : List Char := match r1 with
    | '.' :: t => t.takeWhile Char.isDigit
    | _ => []
  let r2 : List Char := match r1 with
    | '.' :: t => t.dropWhile Char.isDigit
    | _ => r1
  if ip.isEmpty && fp.isEmpty then none
  else
    let mant : ℚ := sgn * ((decVal ip : ℚ) + (decVal fp : ℚ) / ((10 : ℚ) ^ fp.length))
    match r2 with
    | [] => some mant
    | e :: t =>
      if e = 'e' ∨ e = 'E' then
        let esgn : ℤ := match t with
          | '-' :: _ => -1
          | _ => 1
        let t1 : List Char := match t with
          | '-' :: u => u
          | '+' :: u => u
          | _ => t
        let ed := t1.takeWhile Char.isDigit
        let r3 := t1.dropWhile Char.isDigit
        if ed.isEmpty || !r3.isEmpty then none
        else some (mant * (10 : ℚ) ^ (esgn * (decVal ed : ℤ)))
      else none

/-- `AdvancedTransactionParser.currency_symbols` (phase2_parser.py line 46). -/
def currencySymbols : List String :=
  ["$", "€", "£", "¥", "₹", "HUF", "EUR", "USD", "GBP"]

/-- Python `"a,b".split(',')`. -/
def splitComma : List Char → List (List Char)
  | [] => [[]]
  | c :: t =>
    if c = ',' then [] :: splitComma t
    else
      match splitComma t with
      | h :: r => (c :: h) :: r
      | [] => [[c]]

/-- The comma-disambiguation step of `AdvancedTransactionParser.clean_amount`
(phase2_parser.py lines 195-205): both separators present means commas are
thousands separators; a single comma is a decimal separator when at most two
characters follow it, else a thousands separator; otherwise (several commas,
no dot) the string is left alone. -/
def commaFix (l : List Char) : List Char :=
  if l.contains ',' && l.contains '.' then l.filter (fun c => c ≠ ',')
  else if l.contains ',' && (l.count ',' == 1) then
    (if ((splitComma l).getD 1 []).length ≤ 2 then
      l.map (fun c => if c = ',' then '.' else c)
    else l.filter (fun c => c ≠ ','))
  else l

/-- `AdvancedTransactionParser.clean_amount` (phase2_parser.py lines 172-211).
`none` models a null/NaN cell; a numeric cell is handed over as its literal
string. Every failure path returns `0`. -/
def cleanAmount : Option String → ℚ
  | none => 0
  | some s0 =>
    let s1 := trimWs s0.toList
    let s2 := currencySymbols.foldl (fun acc sym => removeAll sym.toList acc) s1
    let isNeg := s2.contains '(' && s2.contains ')'
    let s3 := if isNeg then s2.filter (fun c => c ≠ '(' ∧ c ≠ ')') else s2
    let s4 := s3.filter (fun c => c.isDigit ∨ c = '.' ∨ c = ',' ∨ c = '-')
    let s5 := commaFix s4
    match parseFloat s5 with
    | some v => if isNeg then -v else v
    | none => 0

/-- `FinancialDataAnalyzer.clean_amount` (financial_analyzer.py lines 187-205):
one regex strips commas, currency symbols, whitespace and parentheses; a `-` is
prepended when the original string had both parentheses; unparseable input
yields `0`. -/
def faCleanAmount : Option String → ℚ
  | none => 0
  | some s0 =>
    let c0 := s0.toList.filter (fun c =>
      ¬ (c = ',' ∨ c = '$' ∨ c = '€' ∨ c = '£' ∨ c = '¥' ∨ c = '₹' ∨
         c.isWhitespace ∨ c = '(' ∨ c = ')'))
    let c1 := if s0.toList.contains '(' && s0.toList.contains ')' then '-' :: c0 else c0
    match parseFloat c1 with
    | some v => v
    | none => 0

/-- `FormatParser.amount_patterns` (format_parser.py lines 10-17) are applied by
`parse_amount` with `re.sub(pattern, '', ...)` in dictionary order.  Each regex
is embedded as a recognizer anchored at the head of the list, returning
`matchLength - 1` on success (the patterns can only match nonempty text).  All
six patterns are deterministic under Python's leftmost/greedy matching because
their consecutive character classes are disjoint, so maximal munch per atom is
exact. -/
def matchUSD : List Char → Option ℕ
  | '$' :: t =>
    let k1 := (t.takeWhile (fun c => c.isDigit || c = ',')).length
    if k1 = 0 then none
    else
      let t1 := t.drop k1
      let kd := if t1.head? = some '.' then 1 else 0
      let k2 := ((t1.drop kd).takeWhile Char.isDigit).length
      some (k1 + kd + k2)
  | _ => none

/-- Recognizer for the `EUR` pattern of `FormatParser.amount_patterns`. -/
def matchEUR : List Char → Option ℕ
  | '€' :: t =>
    let k := (t.takeWhile (fun c => c.isDigit || c = '.' || c = ',')).length
    if k = 0 then none else some k
  | _ => none

/-- Recognizer for the `INR` pattern of `FormatParser.amount_patterns`. -/
def matchINR : List Char → Option ℕ
  | '₹' :: t =>
    let k1 := (t.takeWhile (fun c => c.isDigit || c = ',')).length
    if k1 = 0 then none
    else
      let t1 := t.drop k1
      let kd := if t1.head? = some '.' then 1 else 0
      let k2 := ((t1.drop kd).takeWhile Char.isDigit).length
      some (k1 + kd + k2)
  | _ => none

/-- Recognizer for the `Parentheses` pattern of `FormatParser.amount_patterns`. -/
def matchParens : List Char → Option ℕ
  | '(' :: t =>
    let k1 := (t.takeWhile (fun c => c.isDigit || c = ',')).length
    if k1 = 0 then none
    else
      let t1 := t.drop k1
      let kd := if t1.head? = some '.' then 1 else 0
      let t2 := t1.drop kd
      let k2 := (t2.takeWhile Char.isDigit).length
      if (t2.drop k2).head? = some ')' then some (k1 + kd + k2 + 1) else none
  | _ => none

/-- Recognizer for the `TrailingMinus` pattern of `FormatParser.amount_patterns`. -/
def matchTrailing (l : List Char) : Option ℕ :=
  let k1 := (l.takeWhile (fun c => c.isDigit || c = ',')).length
  if k1 = 0 then none
  else
    let t1 := l.drop k1
    let kd := if t1.head? = some '.' then 1 else 0
    let t2 := t1.drop kd
    let k2 := (t2.takeWhile Char.isDigit).length
    if (t2.drop k2).head? = some '-' then some (k1 + kd + k2) else none

/-- Recognizer for the `ShortScale` pattern of `FormatParser.amount_patterns`
(`[\d.]+[KMB]`, uppercase only since `re.sub` is called without IGNORECASE). -/
def matchShort (l : List Char) : Option ℕ :=
  let k1 := (l.takeWhile (fun c => c.isDigit || c = '.')).length
  if k1 = 0 then none
  else
    match (l.drop k1).head? with
    | some c => if c = 'K' ∨ c = 'M' ∨ c = 'B' then some k1 else none
    | none => none

/-- Helper for `subScan`, structurally recursive on fuel (the list length bounds
the number of scanning steps). -/
def subScanGo (m : List Char → Option ℕ) : ℕ → List Char → List Char
  | 0, l => l
  | _ + 1, [] => []
  | fuel + 1, c :: rest =>
    match m (c :: rest) with
    | some k => subScanGo m fuel (rest.drop k)
    | none => c :: subScanGo m fuel rest

/-- Python `re.sub(pattern, '', s)`: scan left to right, at each position either
remove a match (of length `k + 1`, as reported by the recognizer) or keep the
character and move on. -/
def subScan (m : List Char → Option ℕ) (l : List Char) : List Char :=
  subScanGo m l.length l

/-- `FormatParser.parse_amount` (format_parser.py lines 27-45): strip commas and
whitespace, apply `re.sub(p, '')` for every amount pattern in dictionary order,
then prepend `-` when the original string is parenthesized, or move a trailing
`-` of the original string to the front (dropping the last character of the
current residue), and finally call `float`; `None` on failure. -/
def parseAmount (value : String) : Option ℚ :=
  let c0 := trimWs (value.toList.filter (fun c => c ≠ ','))
  let c1 := subScan matchUSD c0
  let c2 := subScan matchEUR c1
  let c3 := subScan matchINR c2
  let c4 := subScan matchParens c3
  let c5 := subScan matchTrailing c4
  let c6 := subScan matchShort c5
  let c7 :=
    if value.toList.contains '(' && value.toList.contains ')' then '-' :: c6
    else if value.toList.getLast? = some '-' then '-' :: c6.dropLast
    else c6
  parseFloat c7

/-- The canonical parsed-transaction record built by
`AdvancedTransactionParser.parse_bank_statement` (phase2_parser.py lines 16-29);
the provenance fields (`source_file`, `source_sheet`, `row_number`) and the
optional `balance`/`account`/`counterparty`/`category` fields carry no claim
content and are omitted. -/
structure PTxn where
  date : Int
  description : String
  amount : ℚ
  debitCredit : String
  reference : String
deriving DecidableEq

/-- One input row projected onto the columns `parse_bank_statement` selects
(phase2_parser.py lines 243-246): the date cell arrives as a native date or
null (`Option Int`), the amount cell as a raw string or null, description and
reference as optional strings. -/
structure RawRow where
  date : Option Int
  amount : Option String
  desc : Option String
  ref : Option String
deriving DecidableEq

/-- `AdvancedTransactionParser.clean_date` (phase2_parser.py lines 213-233) on
the cell values of this model: `pd.isna(None)` yields `None`, and
`pd.to_datetime` of an already-native date returns it unchanged. -/
def cleanDate : Option Int → Option Int := fun d => d

/-- The body of `parse_bank_statement`'s row loop (phase2_parser.py lines
252-287): a row is dropped when its date does not normalize or its amount
cleans to `0`; otherwise the record stores `abs(amount)` together with a
`DEBIT`/`CREDIT` flag. -/
def parseBankRow (r : RawRow) : Option PTxn :=
  match cleanDate r.date with
  | none => none
  | some d =>
    let a := cleanAmount r.amount
    if a = 0 then none
    else
      some { date := d, description := (r.desc).getD (""), amount := |a|,
             debitCredit := if a < 0 then ("DEBIT") else ("CREDIT"),
             reference := (r.ref).getD ("") }

/-- `AdvancedTransactionParser.parse_bank_statement`'s loop over the rows of a
sheet (phase2_parser.py lines 252-289): rows that fail to normalize are skipped
(`continue`), the rest are appended in order. -/
def parseBankStatement : List RawRow → List PTxn
  | [] => []
  | r :: rest =>
    match parseBankRow r with
    | some t => t :: parseBankStatement rest
    | none => parseBankStatement rest

/-- The transaction view used by the reconciliation routines: date, description
and signed amount (`Transaction` of financial_analyzer.py lines 17-25 and
`ParsedTransaction` as consumed by phase3_reconciler.py). -/
structure Txn where
  date : Int
  description : String
  amount : ℚ
deriving DecidableEq

/-- A reconciliation match tuple `(bank_trans, ledger_trans, score)`. -/
abbrev MatchT := Txn × Txn × ℚ

/-- Tokens of a description: Python `desc.lower().split()`
(phase3_reconciler.py lines 57-58). -/
def tokenList (s : String) : List String :=
  (splitWs (lowerStr s.toList)).map (fun cs => String.mk cs)

/-- `DataReconciler.description_similarity` (phase3_reconciler.py lines 55-60):
fractional overlap of the two deduplicated token sets (Python `set`s are
modelled as deduplicated lists), scaled to 0-100. -/
def descriptionSimilarity (d1 d2 : String) : ℚ :=
  let s1 := (tokenList d1).dedup
  let s2 := (tokenList d2).dedup
  let common := s1.filter (fun w => w ∈ s2)
  ((common.length : ℚ) / ((max s1.length (max s2.length 1) : ℕ) : ℚ)) * 100

/-- The candidate-eligibility guard shared by both reconciliation loops
(phase3_reconciler.py lines 37-39, financial_analyzer.py lines 380-384): date
difference within `date_tolerance` days AND amount difference within
`amount_tolerance`, both inclusive. -/
def eligible (dtol : Int) (atol : ℚ) (b l : Txn) : Bool :=
  decide (|b.date - l.date| ≤ dtol) && decide (|b.amount - l.amount| ≤ atol)

/-- The combined score of an eligible candidate
(`desc_score - date_diff*10 - amount_diff*100`, phase3_reconciler.py line 44 and
financial_analyzer.py line 389), with the description similarity abstracted as
`sim`. -/
def matchScore (sim : String → String → ℚ) (b l : Txn) : ℚ :=
  sim b.description l.description
    - ((|b.date - l.date| : ℤ) : ℚ) * 10 - |b.amount - l.amount| * 100

/-- The inner candidate loop of
`FinancialDataAnalyzer.find_matching_transactions` (financial_analyzer.py lines
375-393): running best match and best score (initially `None` and `0`), updated
when an eligible candidate scores above both the current best and the fixed
threshold 50. -/
def fmScan (sim : String → String → ℚ) (dtol : Int) (atol : ℚ) (b : Txn) :
    List Txn → Option (Txn × ℚ) → ℚ → Option (Txn × ℚ)
  | [], best, _ => best
  | l :: rest, best, bestScore =>
    if eligible dtol atol b l then
      (if bestScore < matchScore sim b l ∧ 50 < matchScore sim b l then
        fmScan sim dtol atol b rest (some (l, matchScore sim b l)) (matchScore sim b l)
      else fmScan sim dtol atol b rest best bestScore)
    else fmScan sim dtol atol b rest best bestScore

/-- The outer loop of `find_matching_transactions` (financial_analyzer.py lines
374-402): each bank transaction either emits a match — and the matched ledger
transaction is removed from the candidate pool (`ledger_transactions.remove`,
which deletes the first equal element) — or goes to `unmatched_bank`; the final
pool is `unmatched_ledger`. -/
def findMatchingAux (sim : String → String → ℚ) (dtol : Int) (atol : ℚ) :
    List Txn → List Txn → List MatchT → List Txn → List MatchT × List Txn × List Txn
  | [], pool, ms, ub => (ms, ub, pool)
  | b :: rest, pool, ms, ub =>
    match fmScan sim dtol atol b pool none 0 with
    | some (l, s) => findMatchingAux sim dtol atol rest (pool.erase l) (ms ++ [(b, l, s)]) ub
    | none => findMatchingAux sim dtol atol rest pool ms (ub ++ [b])

/-- `FinancialDataAnalyzer.find_matching_transactions` (financial_analyzer.py
lines 363-424), returning `(matches, unmatched_bank, unmatched_ledger)`.  The
fuzzy `fuzz.partial_ratio` description scorer is an external library call and is
abstracted as the parameter `sim`; the source defaults are `tolerance_days = 3`
and `amount_tolerance = 0.01`. -/
def findMatchingTransactions (sim : String → String → ℚ) (dtol : Int) (atol : ℚ)
    (bank ledger : List Txn) : List MatchT × List Txn × List Txn :=
  findMatchingAux sim dtol atol bank ledger [] []

/-- The inner candidate loop of `DataReconciler.reconcile_transactions`
(phase3_reconciler.py lines 32-48): like `fmScan` but with the concrete
token-overlap scorer, no acceptance threshold beyond `score > best_score`
(best score starts at `0`), and no pool mutation. -/
def p3Scan (dtol : Int) (atol : ℚ) (b : Txn) :
    List Txn → Option (Txn × ℚ) → ℚ → Option (Txn × ℚ)
  | [], best, _ => best
  | l :: rest, best, bestScore =>
    if eligible dtol atol b l then
      (if bestScore < matchScore descriptionSimilarity b l then
        p3Scan dtol atol b rest (some (l, matchScore descriptionSimilarity b l))
          (matchScore descriptionSimilarity b l)
      else p3Scan dtol atol b rest best bestScore)
    else p3Scan dtol atol b rest best bestScore

/-- The outer loop of `reconcile_transactions` (phase3_reconciler.py lines
29-53): every bank transaction scans the full, never-shrinking ledger list and
appends a match whenever a best candidate exists. -/
def reconcileAux (dtol : Int) (atol : ℚ) (ledger : List Txn) :
    List Txn → List MatchT → List MatchT
  | [], acc => acc
  | b :: rest, acc =>
    match p3Scan dtol atol b ledger none 0 with
    | some (l, s) => reconcileAux dtol atol ledger rest (acc ++ [(b, l, s)])
    | none => reconcileAux dtol atol ledger rest acc

/-- `DataReconciler.reconcile_transactions` (phase3_reconciler.py lines 15-53);
source defaults are `date_tolerance = 3`, `amount_tolerance = 0.01`.  It returns
only the match list — no unmatched sets. -/
def reconcileTransactions (dtol : Int) (atol : ℚ) (bank ledger : List Txn) : List MatchT :=
  reconcileAux dtol atol ledger bank []

/-- `TypeDetectionResult` (type_detector.py lines 8-15) restricted to the two
fields the claims are about; `sample_values`, `format_pattern` and
`additional_info` are reporting payload with no claim content. -/
structure DetResult where
  detectedType : String
  confidence : ℚ
deriving DecidableEq

/-- `DataTypeDetector.string_indicators` (type_detector.py lines 21-24). -/
def stringIndicators : List String :=
  ["name", "description", "category", "reference", "note", "memo",
   "account", "company", "address", "type", "status", "comment"]

/-- `DataTypeDetector.number_indicators` (type_detector.py lines 26-30). -/
def numberIndicators : List String :=
  ["amount", "balance", "total", "sum", "value", "price", "cost",
   "revenue", "expense", "asset", "liability", "quantity", "qty",
   "percent", "percentage", "ratio", "rate"]

/-- `DataTypeDetector.date_indicators` (type_detector.py lines 32-35). -/
def dateIndicators : List String :=
  ["date", "time", "created", "updated", "due", "start", "end",
   "maturity", "period", "year", "month", "day", "fiscal"]

/-- The name-hint test `if column_name: ... if any(indicator in col_lower ...)`
used by every sub-detector (type_detector.py lines 71-74, 135-138, 231-234). -/
def kwHit (kws : List String) (name : String) : Bool :=
  !name.isEmpty && kws.any (fun k => containsSub k.toList (lowerStr name.toList))

/-- The fixed name-hint bonus: `0.3` when a keyword matches, else `0`. -/
def nameScoreOf (kws : List String) (name : String) : ℚ :=
  if kwHit kws name then 3/10 else 0

/-- `successful_parses / total_attempts` over the 20-element sample each
sub-detector takes (`data.head(20)`; the cells of this model are never NaN, so
every sample row is an attempt). -/
def parseRate (ok : String → Bool) (values : List String) : ℚ :=
  let sample := values.take 20
  ((sample.filter ok).length : ℚ) / ((sample.length : ℕ) : ℚ)

/-- `DataTypeDetector._detect_date_type` (type_detector.py lines 63-125) on
string-valued cells.  The per-value success test — `pd.to_datetime` (an
external pandas parser) or one of six regex patterns — is abstracted as the
oracle `dateOk`; confidence is `min(parse_rate + name_score, 1)` and stays `0`
for an empty sample exactly as in the source (`if total_attempts > 0`). -/
def detectDateType (dateOk : String → Bool) (values : List String) (name : String) : DetResult :=
  ⟨("date"),
    if 0 < (values.take 20).length then
      min (parseRate dateOk values + nameScoreOf dateIndicators name) 1
    else 0⟩

/-- `DataTypeDetector._detect_number_type` (type_detector.py lines 127-221) on
string-valued cells (the `is_numeric_dtype` branch concerns pandas-native
numeric columns, which this string-cell model does not produce).  The per-value
success test — `float(...)`, eight currency regexes, or the cleaned fallback,
lines 184-207 — is abstracted as the oracle `numOk`. -/
def detectNumberType (numOk : String → Bool) (values : List String) (name : String) : DetResult :=
  ⟨("number"),
    if 0 < (values.take 20).length then
      min (parseRate numOk values + nameScoreOf numberIndicators name) 1
    else 0⟩

/-- `DataTypeDetector._detect_string_type` (type_detector.py lines 223-266):
base confidence `0.5` plus the name bonus, capped at 1; the subtype is refined
by average length, uniqueness ratio and token counts. -/
def detectStringType (values : List String) (name : String) : DetResult :=
  let sample := values.take 20
  let conf0 : ℚ := 1/2 + nameScoreOf stringIndicators name
  if sample.isEmpty then ⟨("string"), 3/10⟩
  else
    let avgLen : ℚ := (sample.map (fun s => (s.length : ℚ))).sum / ((sample.length : ℕ) : ℚ)
    let uniqFrac : ℚ := ((sample.dedup.length : ℕ) : ℚ) / ((sample.length : ℕ) : ℚ)
    let stype :=
      if avgLen > 50 then ("long_text")
      else if uniqFrac < 1/10 then ("categorical")
      else if (sample.take 5).all (fun s => 3 < (splitWs s.toList).length) then ("description")
      else ("string")
    ⟨stype, min conf0 1⟩

/-- Python `max(results, key=confidence)` over the three sub-results: iterate,
replacing the current best only on a strictly greater key, so the earliest
maximal element wins (type_detector.py lines 58-59). -/
def pyMax3 (d n s : DetResult) : DetResult :=
  let m1 := if d.confidence < n.confidence then n else d
  if m1.confidence < s.confidence then s else m1

/-- `DataTypeDetector.detect_column_type` (type_detector.py lines 37-61): empty
column short-circuits to `("string", 0)`; otherwise date then number may
short-circuit at confidence `> 0.7`, else the maximum of the three results is
returned. -/
def detectColumnType (dateOk numOk : String → Bool) (values : List String)
    (name : String) : DetResult :=
  if values.isEmpty then ⟨("string"), 0⟩
  else
    let d := detectDateType dateOk values name
    if 7/10 < d.confidence then d
    else
      let n := detectNumberType numOk values name
      if 7/10 < n.confidence then n
      else pyMax3 d n (detectStringType values name)

/-- The selection rule exactly as the spec words it: evaluate date, number,
string in that order; the first whose confidence exceeds 0.7 is returned;
otherwise the candidate with the maximum confidence, ties resolved in favor of
the earlier candidate (date beats number beats string). -/
def specSelect (d n s : DetResult) : DetResult :=
  if 7/10 < d.confidence then d
  else if 7/10 < n.confidence then n
  else if 7/10 < s.confidence then s
  else if n.confidence ≤ d.confidence ∧ s.confidence ≤ d.confidence then d
  else if s.confidence ≤ n.confidence then n
  else s

/-- `QueryFilter` (data_storage.py lines 11-17).  Cell values and filter
operands are the opaque cell strings of this model; the list-valued `in`
operator is not modelled (no claim mentions it). -/
structure QFilter where
  column : String
  op : String
  value : String
  value2 : Option String
deriving DecidableEq

/-- A stored table: named columns and rows of cell strings. -/
structure Table where
  cols : List String
  rows : List (List String)
deriving DecidableEq

/-- `_apply_filter` / the per-operator comparisons shared by the backends
(data_storage.py lines 92-112, 182-194, 293-310): pandas elementwise and SQL
comparisons on the cell strings; an unknown operator (or `between` without
`value2`) keeps every row, like the final `else` of `_apply_filter`. -/
def cellOpHolds (op : String) (cell : String) (v : String) (v2 : Option String) : Bool :=
  if op = ("==") then cell == v
  else if op = (">") then decide (v < cell)
  else if op = ("<") then decide (cell < v)
  else if op = (">=") then decide (v ≤ cell)
  else if op = ("<=") then decide (cell ≤ v)
  else if op = ("between") then
    match v2 with
    | some w => decide (v ≤ cell) && decide (cell ≤ w)
    | none => true
  else true

/-- Position of a column in a table header (Python column lookup). -/
def colPos (cols : List String) (c : String) : ℕ := cols.findIdx (fun x => x == c)

/-- Association-list lookup, modelling a Python dict keyed by strings. -/
def lookupA {α : Type} (m : List (String × α)) (k : String) : Option α :=
  (m.find? (fun p => p.1 == k)).map (fun p => p.2)

/-- Python dict assignment `m[k] = v`: overwrite in place or append a new key. -/
def setA {α : Type} (m : List (String × α)) (k : String) (v : α) : List (String × α) :=
  if (m.find? (fun p => p.1 == k)).isSome then
    m.map (fun p => if p.1 == k then (k, v) else p)
  else m ++ [(k, v)]

/-- Append a row position to a hash-index bucket, creating the bucket on first
use (data_storage.py lines 258-262). -/
def addIdxEntry (ix : List (String × List ℕ)) (v : String) (i : ℕ) :
    List (String × List ℕ) :=
  if (ix.find? (fun p => p.1 == v)).isSome then
    ix.map (fun p => if p.1 == v then (p.1, p.2 ++ [i]) else p)
  else ix ++ [(v, [i])]

/-- The values of one column, in row order. -/
def colValues (df : Table) (col : String) : List String :=
  df.rows.map (fun r => r.getD (colPos df.cols col) (""))

/-- `for idx, value in enumerate(df[col]): ...` building one column's hash
index (data_storage.py lines 257-262). -/
def buildColIndex (df : Table) (col : String) : List (String × List ℕ) :=
  ((colValues df col).enum).foldl (fun ix p => addIdxEntry ix p.2 p.1) []

/-- The state of a `DictionaryHashStorage` instance (data_storage.py lines
241-247): the stored table, the hash indexes and the column metadata
(flattened to `column -> detected_type`). -/
structure HashStore where
  data : Table
  hashIdx : List (String × List (String × List ℕ))
  meta : List (String × String)
deriving DecidableEq

/-- `DictionaryHashStorage.store_data` (data_storage.py lines 249-262): the
table and metadata are replaced, and a hash index is (re)built for every column
whose new metadata type is `string` or `categorical` — index entries of other
columns are left as they were (the dict is never cleared). -/
def hashStoreData (st : HashStore) (df : Table) (meta : List (String × String)) : HashStore :=
  let idx := df.cols.foldl (fun acc col =>
    if lookupA meta col = some ("string") ∨ lookupA meta col = some ("categorical") then
      setA acc col (buildColIndex df col)
    else acc) st.hashIdx
  ⟨df, idx, meta⟩

/-- `DictionaryHashStorage.query_data` (data_storage.py lines 264-291): start
from all row positions, intersect per filter — through the hash index for `==`
on an indexed column, otherwise by scanning — and return the rows at the
surviving positions.  Position sets are kept as ascending lists (CPython
iterates these small int sets in ascending order). -/
def hashQueryData (st : HashStore) (filters : List QFilter) : Table :=
  if st.data.rows.isEmpty then ⟨[], []⟩
  else
    let valid := filters.foldl (fun valid f =>
      if ¬ (f.column ∈ st.data.cols) then valid
      else if f.op = ("==") ∧ (lookupA st.hashIdx f.column).isSome then
        match lookupA st.hashIdx f.column with
        | some ix =>
          (match lookupA ix f.value with
           | some ixs => valid.filter (fun i => ixs.contains i)
           | none => [])
        | none => valid
      else
        valid.filter (fun i =>
          cellOpHolds f.op ((st.data.rows.getD i []).getD (colPos st.data.cols f.column) (""))
            f.value f.value2))
      (List.range st.data.rows.length)
    ⟨st.data.cols, valid.map (fun i => st.data.rows.getD i [])⟩

/-- The state of a `PandasMultiIndexStorage` instance: `data` is `None` until
the first `store_data` (data_storage.py lines 37-40).  The MultiIndex `xs`
branch is not modelled; filters read the table through its flat columns, the
fallback representation of the source (line 73). -/
structure PandasStore where
  data : Option Table
deriving DecidableEq

/-- One step of the pandas filter loop (data_storage.py lines 84-115): unknown
columns are skipped, otherwise the rows satisfying the operator survive. -/
def tableFilter (t : Table) (f : QFilter) : Table :=
  if ¬ (f.column ∈ t.cols) then t
  else ⟨t.cols, t.rows.filter (fun r =>
    cellOpHolds f.op (r.getD (colPos t.cols f.column) ("")) f.value f.value2)⟩

/-- `PandasMultiIndexStorage.query_data` (data_storage.py lines 77-117):
empty result when nothing is stored, otherwise the filters are applied
conjunctively in the order given. -/
def pandasQueryData (st : PandasStore) (filters : List QFilter) : Table :=
  match st.data with
  | none => ⟨[], []⟩
  | some t => filters.foldl tableFilter t

/-- The state of a `SQLiteStorage` instance: the single stored table
(`to_sql(..., if_exists='replace')` replaces it wholesale). -/
structure SqliteStore where
  table : Table
deriving DecidableEq

/-- Which filters contribute a WHERE clause in `SQLiteStorage.query_data`
(data_storage.py lines 177-194): `==`, the four comparisons, and `between`
with a second value; anything else adds no clause. -/
def sqlSupported (f : QFilter) : Bool :=
  f.op = ("==") || f.op = (">") || f.op = ("<") || f.op = (">=") || f.op = ("<=") ||
    (f.op = ("between") && f.value2.isSome)

/-- `SQLiteStorage.query_data` (data_storage.py lines 172-204): `SELECT *`
with the conjunction of the generated WHERE clauses; a clause naming an
unknown column makes the SQL fail and the except-branch returns an empty
frame. -/
def sqliteQueryData (st : SqliteStore) (filters : List QFilter) : Table :=
  let clauses := filters.filter (fun f => sqlSupported f)
  if clauses.all (fun f => f.column ∈ st.table.cols) then
    ⟨st.table.cols, st.table.rows.filter (fun r =>
      clauses.all (fun f =>
        cellOpHolds f.op (r.getD (colPos st.table.cols f.column) ("")) f.value f.value2))⟩
  else ⟨[], []⟩

/-- Concrete inputs: two identical bank transactions and one ledger transaction
whose descriptions coincide, used to exercise `reconcile_transactions`. -/
def c1Bank : Txn := ⟨0, ("payment"), 100⟩

/-- The single ledger transaction of the duplicate-match run. -/
def c1Ledger : Txn := ⟨0, ("payment"), 100⟩

/-- Bank transaction whose description shares exactly half its tokens with
`c3Ledger`, giving description similarity 50. -/
def c3Bank : Txn := ⟨0, ("alpha beta"), 100⟩

/-- Ledger counterpart of `c3Bank`. -/
def c3Ledger : Txn := ⟨0, ("alpha gamma"), 100⟩

/-- A bank/ledger pair four days apart, one day beyond the default tolerance. -/
def c3wBank : Txn := ⟨0, ("pay"), 100⟩

/-- See `c3wBank`. -/
def c3wLedger : Txn := ⟨4, ("pay"), 100⟩

/-- A row whose amount cell is written in parenthesized (negative) notation. -/
def c5Row : RawRow := ⟨some 0, some ("(2,500.00)"), some ("Utilities"), none⟩

/-- The record `parse_bank_statement` builds from `c5Row`. -/
def c5Rec : PTxn := ⟨0, ("Utilities"), 2500, ("DEBIT"), ("")⟩

/-- A row with an unparseable amount cell (cleans to `0`, so it is dropped). -/
def c7Bad : RawRow := ⟨some 0, some ("abc"), none, none⟩

/-- A well-formed row that must survive parsing untouched by `c7Bad`. -/
def c7Good : RawRow := ⟨some 0, some ("5"), some ("ok"), none⟩

/-- First table stored in the hash backend: column `cat` typed `string`, so a
hash index is built for it. -/
def c8Df1 : Table := ⟨[("cat")], [[("a")], [("b")]]⟩

/-- Second table stored in the hash backend: same column, rows swapped, and
metadata that no longer marks `cat` as string — so its index is not rebuilt. -/
def c8Df2 : Table := ⟨[("cat")], [[("b")], [("a")]]⟩

/-- Metadata of the first store call. -/
def c8Meta1 : List (String × String) := [(("cat"), ("string"))]

/-- The equality filter whose answer the stale index corrupts. -/
def c8Filter : QFilter := ⟨("cat"), ("=="), ("a"), none⟩

/-- A freshly constructed `DictionaryHashStorage`. -/
def c8Init : HashStore := ⟨⟨[], []⟩, [], []⟩

/-- A one-row table for the empty-filter witnesses. -/
def w10Tbl : Table := ⟨[("c")], [[("v")]]⟩

/-- Pandas backend state holding `w10Tbl`. -/
def w10Pandas : PandasStore := ⟨some w10Tbl⟩

/-- SQLite backend state holding `w10Tbl`. -/
def w10Sqlite : SqliteStore := ⟨w10Tbl⟩

/-- Hash backend state holding `w10Tbl`. -/
def w10Hash : HashStore := ⟨w10Tbl, [], []⟩
theorem fmScan_sound (sim : String → String → ℚ) (dtol : Int) (atol : ℚ) (b : Txn) :
    ∀ (pool : List Txn) (best : Option (Txn × ℚ)) (bs : ℚ) (l : Txn) (s : ℚ),
      fmScan sim dtol atol b pool best bs = some (l, s) →
      best = some (l, s) ∨ (l ∈ pool ∧ 50 < s ∧ eligible dtol atol b l = true)
  | [], best, bs, l, s, h => Or.inl h
  | l' :: rest, best, bs, l, s, h => by
    rw [fmScan] at h
    by_cases he : eligible dtol atol b l' = true
    · rw [if_pos he] at h
      by_cases hc : bs < matchScore sim b l' ∧ 50 < matchScore sim b l'
      · rw [if_pos hc] at h
        rcases fmScan_sound sim dtol atol b rest _ _ l s h with h1 | h1
        · have h2 := Option.some.inj h1
          rw [Prod.mk.injEq] at h2
          obtain ⟨h2a, h2b⟩ := h2
          subst h2a
          subst h2b
          exact Or.inr ⟨List.mem_cons_self _ _, hc.2, he⟩
        · exact Or.inr ⟨List.mem_cons_of_mem _ h1.1, h1.2.1, h1.2.2⟩
      · rw [if_neg hc] at h
        rcases fmScan_sound sim dtol atol b rest _ _ l s h with h1 | h1
        · exact Or.inl h1
        · exact Or.inr ⟨List.mem_cons_of_mem _ h1.1, h1.2.1, h1.2.2⟩
    · rw [if_neg he] at h
      rcases fmScan_sound sim dtol atol b rest _ _ l s h with h1 | h1
      · exact Or.inl h1
      · exact Or.inr ⟨List.mem_cons_of_mem _ h1.1, h1.2.1, h1.2.2⟩

theorem p3Scan_sound (dtol : Int) (atol : ℚ) (b : Txn) :
    ∀ (pool : List Txn) (best : Option (Txn × ℚ)) (bs : ℚ) (l : Txn) (s : ℚ),
      p3Scan dtol atol b pool best bs = some (l, s) →
      best = some (l, s) ∨ (l ∈ pool ∧ bs < s ∧ eligible dtol atol b l = true)
  | [], best, bs, l, s, h => Or.inl h
  | l' :: rest, best, bs, l, s, h => by
    rw [p3Scan] at h
    by_cases he : eligible dtol atol b l' = true
    · rw [if_pos he] at h
      by_cases hc : bs < matchScore descriptionSimilarity b l'
      · rw [if_pos hc] at h
        rcases p3Scan_sound dtol atol b rest _ _ l s h with h1 | h1
        · have h2 := Option.some.inj h1
          rw [Prod.mk.injEq] at h2
          obtain ⟨h2a, h2b⟩ := h2
          subst h2a
          subst h2b
          exact Or.inr ⟨List.mem_cons_self _ _, hc, he⟩
        · exact Or.inr ⟨List.mem_cons_of_mem _ h1.1, lt_trans hc h1.2.1, h1.2.2⟩
      · rw [if_neg hc] at h
        rcases p3Scan_sound dtol atol b rest _ _ l s h with h1 | h1
        · exact Or.inl h1
        · exact Or.inr ⟨List.mem_cons_of_mem _ h1.1, h1.2.1, h1.2.2⟩
    · rw [if_neg he] at h
      rcases p3Scan_sound dtol atol b rest _ _ l s h with h1 | h1
      · exact Or.inl h1
      · exact Or.inr ⟨List.mem_cons_of_mem _ h1.1, h1.2.1, h1.2.2⟩

theorem fmAux_ledger_count (sim : String → String → ℚ) (dtol : Int) (atol : ℚ) :
    ∀ (bank pool : List Txn) (ms : List MatchT) (ub : List Txn) (x : Txn),
      ((findMatchingAux sim dtol atol bank pool ms ub).1.map (fun m => m.2.1)).count x
        + ((findMatchingAux sim dtol atol bank pool ms ub).2.2).count x
      = (ms.map (fun m => m.2.1)).count x + pool.count x
  | [], pool, ms, ub, x => rfl
  | b :: rest, pool, ms, ub, x => by
    rw [findMatchingAux]
    split
    next l s hscan =>
      have hl : l ∈ pool := by
        rcases fmScan_sound sim dtol atol b pool none 0 l s hscan with h | h
        · exact absurd h (by simp)
        · exact h.1
      have hcnt : 0 < pool.count l := List.count_pos_iff.mpr hl
      have ih := fmAux_ledger_count sim dtol atol rest (pool.erase l) (ms ++ [(b, l, s)]) ub x
      rw [ih, List.map_append, List.count_append]
      simp only [List.map_cons, List.map_nil, List.count_singleton', List.count_erase, beq_iff_eq]
      split_ifs with h1
      · rw [h1] at hcnt
        omega
      · omega
    next hscan =>
      exact fmAux_ledger_count sim dtol atol rest pool ms (ub ++ [b]) x

theorem fmAux_bank_count (sim : String → String → ℚ) (dtol : Int) (atol : ℚ) :
    ∀ (bank pool : List Txn) (ms : List MatchT) (ub : List Txn) (x : Txn),
      ((findMatchingAux sim dtol atol bank pool ms ub).1.map (fun m => m.1)).count x
        + ((findMatchingAux sim dtol atol bank pool ms ub).2.1).count x
      = (ms.map (fun m => m.1)).count x + ub.count x + bank.count x
  | [], pool, ms, ub, x => by simp [findMatchingAux]
  | b :: rest, pool, ms, ub, x => by
    rw [findMatchingAux]
    split
    next l s hscan =>
      have ih := fmAux_bank_count sim dtol atol rest (pool.erase l) (ms ++ [(b, l, s)]) ub x
      rw [ih]
      simp only [List.map_append, List.map_cons, List.map_nil, List.count_append,
        List.count_cons, List.count_singleton', List.count_nil, beq_iff_eq]
      split_ifs <;> omega
    next hscan =>
      have ih := fmAux_bank_count sim dtol atol rest pool ms (ub ++ [b]) x
      rw [ih]
      simp only [List.count_append, List.count_cons, List.count_singleton', List.count_nil,
        beq_iff_eq]
      split_ifs <;> omega

theorem fmAux_len (sim : String → String → ℚ) (dtol : Int) (atol : ℚ) :
    ∀ (bank pool : List Txn) (ms : List MatchT) (ub : List Txn),
      (findMatchingAux sim dtol atol bank pool ms ub).1.length
        + (findMatchingAux sim dtol atol bank pool ms ub).2.1.length
      = ms.length + ub.length + bank.length
  | [], pool, ms, ub => by simp [findMatchingAux]
  | b :: rest, pool, ms, ub => by
    rw [findMatchingAux]
    split
    next l s hscan =>
      have ih := fmAux_len sim dtol atol rest (pool.erase l) (ms ++ [(b, l, s)]) ub
      rw [ih]
      simp only [List.length_append, List.length_cons, List.length_nil]
      omega
    next hscan =>
      have ih := fmAux_len sim dtol atol rest pool ms (ub ++ [b])
      rw [ih]
      simp only [List.length_append, List.length_cons, List.length_nil]
      omega

theorem fmAux_mem (sim : String → String → ℚ) (dtol : Int) (atol : ℚ) :
    ∀ (bank pool : List Txn) (ms : List MatchT) (ub : List Txn) (m : MatchT),
      m ∈ (findMatchingAux sim dtol atol bank pool ms ub).1 →
      m ∈ ms ∨ (50 < m.2.2 ∧ eligible dtol atol m.1 m.2.1 = true)
  | [], pool, ms, ub, m, h => Or.inl h
  | b :: rest, pool, ms, ub, m, h => by
    rw [findMatchingAux] at h
    revert h
    split
    next l s hscan =>
      intro h
      rcases fmAux_mem sim dtol atol rest (pool.erase l) (ms ++ [(b, l, s)]) ub m h with h1 | h1
      · rw [List.mem_append] at h1
        rcases h1 with h2 | h2
        · exact Or.inl h2
        · rcases List.mem_singleton.mp h2 with rfl
          right
          rcases fmScan_sound sim dtol atol b pool none 0 l s hscan with h3 | h3
          · exact absurd h3 (by simp)
          · exact ⟨h3.2.1, h3.2.2⟩
      · exact Or.inr h1
    next hscan =>
      intro h
      exact fmAux_mem sim dtol atol rest pool ms (ub ++ [b]) m h

theorem p3Aux_mem (dtol : Int) (atol : ℚ) (ledger : List Txn) :
    ∀ (bank : List Txn) (acc : List MatchT) (m : MatchT),
      m ∈ reconcileAux dtol atol ledger bank acc →
      m ∈ acc ∨ (0 < m.2.2 ∧ eligible dtol atol m.1 m.2.1 = true ∧ m.2.1 ∈ ledger)
  | [], acc, m, h => Or.inl h
  | b :: rest, acc, m, h => by
    rw [reconcileAux] at h
    revert h
    split
    next l s hscan =>
      intro h
      rcases p3Aux_mem dtol atol ledger rest (acc ++ [(b, l, s)]) m h with h1 | h1
      · rw [List.mem_append] at h1
        rcases h1 with h2 | h2
        · exact Or.inl h2
        · rcases List.mem_singleton.mp h2 with rfl
          right
          rcases p3Scan_sound dtol atol b ledger none 0 l s hscan with h3 | h3
          · exact absurd h3 (by simp)
          · exact ⟨h3.2.1, h3.2.2, h3.1⟩
      · exact Or.inr h1
    next hscan =>
      intro h
      exact p3Aux_mem dtol atol ledger rest acc m h

theorem p3Aux_bank_count (dtol : Int) (atol : ℚ) (ledger : List Txn) :
    ∀ (bank : List Txn) (acc : List MatchT) (x : Txn),
      ((reconcileAux dtol atol ledger bank acc).map (fun m => m.1)).count x
      ≤ (acc.map (fun m => m.1)).count x + bank.count x
  | [], acc, x => by simp [reconcileAux]
  | b :: rest, acc, x => by
    rw [reconcileAux]
    split
    next l s hscan =>
      have ih := p3Aux_bank_count dtol atol ledger rest (acc ++ [(b, l, s)]) x
      refine le_trans ih ?_
      rw [List.map_append, List.count_append, List.count_cons]
      simp only [List.map_cons, List.map_nil, List.count_singleton', beq_iff_eq]
      split_ifs <;> omega
    next hscan =>
      have ih := p3Aux_bank_count dtol atol ledger rest acc x
      refine le_trans ih ?_
      rw [List.count_cons]
      split_ifs <;> omega

theorem parseBankRow_drops (r : RawRow) (h : r.date = none ∨ cleanAmount r.amount = 0) :
    parseBankRow r = none := by
  rcases h with h | h
  · simp [parseBankRow, cleanDate, h]
  · cases hd : r.date with
    | none => simp [parseBankRow, cleanDate, hd]
    | some d => simp [parseBankRow, cleanDate, hd, h]

theorem parseBankRow_fields (r : RawRow) (t : PTxn) (h : parseBankRow r = some t) :
    t.amount = |cleanAmount r.amount| ∧ 0 < t.amount ∧
      (t.debitCredit = ("DEBIT") ↔ cleanAmount r.amount < 0) := by
  rw [parseBankRow] at h
  cases hd : r.date with
  | none =>
    rw [hd] at h
    exact absurd h (by simp [cleanDate])
  | some d =>
    rw [hd] at h
    simp only [cleanDate] at h
    by_cases ha : cleanAmount r.amount = 0
    · rw [if_pos ha] at h
      exact absurd h (by simp)
    · rw [if_neg ha] at h
      have ht := Option.some.inj h
      subst ht
      refine ⟨rfl, abs_pos.mpr ha, ?_⟩
      by_cases hneg : cleanAmount r.amount < 0
      · simp only [if_pos hneg]
        exact iff_of_true trivial hneg
      · simp only [if_neg hneg]
        exact ⟨fun hx => absurd hx (by decide), fun hx => absurd hx hneg⟩

theorem parseBank_drop_insensitive (xs ys : List RawRow) (r : RawRow)
    (h : parseBankRow r = none) :
    parseBankStatement (xs ++ r :: ys) = parseBankStatement (xs ++ ys) := by
  induction xs with
  | nil =>
    rw [List.nil_append, List.nil_append, parseBankStatement, h]
  | cons x xs ih =>
    rw [List.cons_append, List.cons_append, parseBankStatement, parseBankStatement]
    cases parseBankRow x <;> simp [ih]

theorem parseBank_amount_pos :
    ∀ (rows : List RawRow) (t : PTxn), t ∈ parseBankStatement rows → 0 < t.amount
  | [], t, h => absurd h (by simp [parseBankStatement])
  | r :: rest, t, h => by
    rw [parseBankStatement] at h
    revert h
    split
    next t' heq =>
      intro h
      rcases List.mem_cons.mp h with rfl | h1
      · exact (parseBankRow_fields r t heq).2.1
      · exact parseBank_amount_pos rest t h1
    next heq =>
      intro h
      exact parseBank_amount_pos rest t h

theorem rangeMapGetD : ∀ (l : List (List String)),
    (List.range l.length).map (fun i => l.getD i []) = l
  | [] => rfl
  | a :: t => by
    rw [List.length_cons, List.range_succ_eq_map]
    simp only [List.map_cons, List.map_map]
    have hfun : ((fun i => (a :: t).getD i []) ∘ Nat.succ) = (fun i => t.getD i []) := by
      funext i
      simp [List.getD_cons_succ]
    rw [hfun]
    rw [rangeMapGetD t]
    rfl

theorem pandasEmptyFilters (st : PandasStore) (t : Table) (h : st.data = some t) :
    pandasQueryData st [] = t := by
  rw [pandasQueryData, h]
  rfl

theorem sqliteEmptyFilters (st : SqliteStore) : sqliteQueryData st [] = st.table := by
  rw [sqliteQueryData]
  simp only [List.filter_nil, List.all_nil, if_true]
  have : (st.table.rows.filter (fun r => true)) = st.table.rows := List.filter_true _
  rw [this]

theorem hashEmptyFilters (st : HashStore) (h : st.data.rows ≠ []) :
    hashQueryData st [] = st.data := by
  rw [hashQueryData]
  rw [if_neg (by simpa using h)]
  simp only [List.foldl_nil]
  rw [rangeMapGetD st.data.rows]

theorem eligible_iff (dtol : Int) (atol : ℚ) (b l : Txn) :
    eligible dtol atol b l = true ↔ (|b.date - l.date| ≤ dtol ∧ |b.amount - l.amount| ≤ atol) := by
  simp [eligible]

theorem eligible_date_beyond (dtol : Int) (atol : ℚ) (b l : Txn)
    (h : |b.date - l.date| = dtol + 1) : eligible dtol atol b l = false := by
  have : ¬ (eligible dtol atol b l = true) := by
    rw [eligible_iff]
    intro hand
    rw [h] at hand
    omega
  cases he : eligible dtol atol b l
  · rfl
  · exact absurd he this

theorem eligible_amount_beyond (dtol : Int) (atol : ℚ) (b l : Txn)
    (h : |b.amount - l.amount| = atol + 1/100) : eligible dtol atol b l = false := by
  have : ¬ (eligible dtol atol b l = true) := by
    rw [eligible_iff]
    intro hand
    rw [h] at hand
    linarith [hand.2]
  cases he : eligible dtol atol b l
  · rfl
  · exact absurd he this


set_option maxRecDepth 8000 in
/-- Claim C1, counterexample: `reconcile_transactions` never removes a matched
candidate from the pool, so with two identical bank transactions and a single
ledger transaction the one ledger transaction instance appears in two emitted
Match tuples — refuting the at-most-one-match claim for this reconciliation
routine. -/
theorem c1_counterexample :
    ((reconcileTransactions 3 (1/100) [c1Bank, c1Bank] [c1Ledger]).map
        (fun m => m.2.1)).count c1Ledger = 2
    ∧ ([c1Ledger].count c1Ledger) = 1 :=
  ⟨by with_unfolding_all decide, by decide⟩

/-- Claim C1, amended: in `find_matching_transactions` no ledger transaction
instance appears in more than one Match (matched candidates are erased from the
pool) and no bank transaction appears in more than one Match; in
`reconcile_transactions` no bank transaction appears in more than one Match,
but a ledger transaction may be claimed repeatedly.  All statements are
multiset inequalities: each value occurs among the matches at most as often as
among the inputs. -/
theorem c1_amended :
    (∀ (sim : String → String → ℚ) (dtol : Int) (atol : ℚ) (bank ledger : List Txn) (x : Txn),
        ((findMatchingTransactions sim dtol atol bank ledger).1.map (fun m => m.2.1)).count x
          ≤ ledger.count x)
    ∧ (∀ (sim : String → String → ℚ) (dtol : Int) (atol : ℚ) (bank ledger : List Txn) (x : Txn),
        ((findMatchingTransactions sim dtol atol bank ledger).1.map (fun m => m.1)).count x
          ≤ bank.count x)
    ∧ (∀ (dtol : Int) (atol : ℚ) (bank ledger : List Txn) (x : Txn),
        ((reconcileTransactions dtol atol bank ledger).map (fun m => m.1)).count x
          ≤ bank.count x) := by
  refine ⟨?_, ?_, ?_⟩
  · intro sim dtol atol bank ledger x
    have h := fmAux_ledger_count sim dtol atol bank ledger [] [] x
    rw [findMatchingTransactions]
    simp only [List.map_nil, List.count_nil, zero_add] at h
    omega
  · intro sim dtol atol bank ledger x
    have h := fmAux_bank_count sim dtol atol bank ledger [] [] x
    rw [findMatchingTransactions]
    simp only [List.map_nil, List.count_nil, zero_add, add_zero] at h
    omega
  · intro dtol atol bank ledger x
    have h := p3Aux_bank_count dtol atol ledger bank [] x
    rw [reconcileTransactions]
    simp only [List.map_nil, List.count_nil, zero_add] at h
    exact h

/-- Claim C2: for every `find_matching_transactions` run (the one routine that
produces unmatched sets), the number of matches plus the number of
unmatched-bank transactions equals the number of input bank transactions, and
every input ledger transaction lands in exactly one of the matches or the
unmatched-ledger set (multiset partition, stated per value count). -/
theorem c2_completeness :
    ∀ (sim : String → String → ℚ) (dtol : Int) (atol : ℚ) (bank ledger : List Txn),
      (findMatchingTransactions sim dtol atol bank ledger).1.length
          + (findMatchingTransactions sim dtol atol bank ledger).2.1.length = bank.length
      ∧ ∀ x : Txn,
          ((findMatchingTransactions sim dtol atol bank ledger).1.map (fun m => m.2.1)).count x
            + ((findMatchingTransactions sim dtol atol bank ledger).2.2).count x
          = ledger.count x := by
  intro sim dtol atol bank ledger
  constructor
  · have h := fmAux_len sim dtol atol bank ledger [] []
    rw [findMatchingTransactions]
    simpa using h
  · intro x
    have h := fmAux_ledger_count sim dtol atol bank ledger [] [] x
    rw [findMatchingTransactions]
    simpa using h

set_option maxRecDepth 8000 in
/-- Claim C3, counterexample: `reconcile_transactions` emits a Match whose
combined score is exactly 50 (half the tokens shared, zero date and amount
difference) — yet 50 does not exceed 50, refuting the claim that a Match is
emitted only when the best score exceeds the fixed acceptance threshold 50. -/
theorem c3_counterexample :
    reconcileTransactions 3 (1/100) [c3Bank] [c3Ledger] = [(c3Bank, c3Ledger, 50)]
    ∧ ¬ ((50 : ℚ) > 50) :=
  ⟨by with_unfolding_all decide, lt_irrefl 50⟩

/-- Claim C3, amended: eligibility is exactly `|dateDiff| <= dateToleranceDays`
and `|amountDiff| <= amountTolerance` with inclusive bounds (a pair exactly on
both bounds is eligible, one day or one cent beyond either bound is not);
`find_matching_transactions` emits a Match only with score strictly above 50
and an eligible pair, and each bank transaction is counted exactly once across
matches and unmatchedBank; `reconcile_transactions` has no 50-threshold — it
emits a Match only with score strictly above 0 and an eligible pair, and
routes nothing to an unmatched set. -/
theorem c3_amended :
    (∀ (dtol : Int) (atol : ℚ) (b l : Txn),
        eligible dtol atol b l = true ↔ (|b.date - l.date| ≤ dtol ∧ |b.amount - l.amount| ≤ atol))
    ∧ (∀ (dtol : Int) (atol : ℚ) (b l : Txn),
        |b.date - l.date| = dtol + 1 → eligible dtol atol b l = false)
    ∧ (∀ (dtol : Int) (atol : ℚ) (b l : Txn),
        |b.amount - l.amount| = atol + 1/100 → eligible dtol atol b l = false)
    ∧ (∀ (sim : String → String → ℚ) (dtol : Int) (atol : ℚ) (bank ledger : List Txn)
        (b l : Txn) (s : ℚ),
        (b, l, s) ∈ (findMatchingTransactions sim dtol atol bank ledger).1 →
          50 < s ∧ eligible dtol atol b l = true)
    ∧ (∀ (sim : String → String → ℚ) (dtol : Int) (atol : ℚ) (bank ledger : List Txn) (x : Txn),
        ((findMatchingTransactions sim dtol atol bank ledger).1.map (fun m => m.1)).count x
          + ((findMatchingTransactions sim dtol atol bank ledger).2.1).count x = bank.count x)
    ∧ (∀ (dtol : Int) (atol : ℚ) (bank ledger : List Txn) (b l : Txn) (s : ℚ),
        (b, l, s) ∈ reconcileTransactions dtol atol bank ledger →
          0 < s ∧ eligible dtol atol b l = true) := by
  refine ⟨eligible_iff, eligible_date_beyond, eligible_amount_beyond, ?_, ?_, ?_⟩
  · intro sim dtol atol bank ledger b l s hmem
    rw [findMatchingTransactions] at hmem
    rcases fmAux_mem sim dtol atol bank ledger [] [] (b, l, s) hmem with h1 | h1
    · exact absurd h1 (by simp)
    · exact h1
  · intro sim dtol atol bank ledger x
    have h := fmAux_bank_count sim dtol atol bank ledger [] [] x
    rw [findMatchingTransactions]
    simpa using h
  · intro dtol atol bank ledger b l s hmem
    rw [reconcileTransactions] at hmem
    rcases p3Aux_mem dtol atol ledger bank [] (b, l, s) hmem with h1 | h1
    · exact absurd h1 (by simp)
    · exact ⟨h1.1, h1.2.1⟩

/-- Witness for `c3_amended`: a concrete pair four days apart (one day beyond
the default tolerance 3) is ineligible. -/
theorem c3_amended_witness :
    |c3wBank.date - c3wLedger.date| = (3 : ℤ) + 1
    ∧ eligible 3 (1/100) c3wBank c3wLedger = false :=
  ⟨by decide, c3_amended.2.1 3 (1/100) c3wBank c3wLedger (by decide)⟩

set_option maxRecDepth 8000 in
/-- Claim C4, counterexample: `FormatParser.parse_amount` returns `None` on the
documented input `"$1,234.56"` (its `re.sub` loop removes the digits together
with the recognized currency pattern), and `clean_amount` normalizes
`"€1.234,56"` to `1.23456`, not the claimed `1234.56` (with both separators
present every comma is stripped, leaving the European decimal dot as a
thousands-like dot). -/
theorem c4_counterexample :
    parseAmount ("$1,234.56") = none
    ∧ cleanAmount (some ("€1.234,56")) = 123456/100000
    ∧ ¬ ((123456 : ℚ)/100000 = 123456/100) := by
  refine ⟨by decide, ?_, by norm_num⟩
  simp +decide [cleanAmount, parseFloat, commaFix, decVal, trimWs, removeAll, removeAllGo,
    currencySymbols, splitComma]
  norm_num

set_option maxRecDepth 8000 in
/-- Claim C4, amended: `FormatParser.parse_amount` yields `None` on all four
documented notations, because each `re.sub(pattern, '')` deletes the digits
along with the matched pattern.  `AdvancedTransactionParser.clean_amount`
yields the documented values for `"$1,234.56"` (1234.56) and `"(2,500.00)"`
(-2500.00); it yields `0` for `"1234.56-"` (trailing minus is never handled —
`float` fails and the failure path returns 0) and `1.23456` for `"€1.234,56"`
(the comma-disambiguation rule strips the comma when a dot is present). -/
theorem c4_amended :
    parseAmount ("$1,234.56") = none
    ∧ parseAmount ("(2,500.00)") = none
    ∧ parseAmount ("1234.56-") = none
    ∧ parseAmount ("€1.234,56") = none
    ∧ cleanAmount (some ("$1,234.56")) = 123456/100
    ∧ cleanAmount (some ("(2,500.00)")) = -2500
    ∧ cleanAmount (some ("1234.56-")) = 0
    ∧ cleanAmount (some ("€1.234,56")) = 123456/100000 := by
  refine ⟨by decide, by decide, by decide, by decide, ?_, ?_, ?_, ?_⟩
  · simp +decide [cleanAmount, parseFloat, commaFix, decVal, trimWs, removeAll, removeAllGo,
      currencySymbols, splitComma]
    norm_num
  · simp +decide [cleanAmount, parseFloat, commaFix, decVal, trimWs, removeAll, removeAllGo,
      currencySymbols, splitComma]
  · simp +decide [cleanAmount, parseFloat, commaFix, decVal, trimWs, removeAll, removeAllGo,
      currencySymbols, splitComma]
  · simp +decide [cleanAmount, parseFloat, commaFix, decVal, trimWs, removeAll, removeAllGo,
      currencySymbols, splitComma]
    norm_num

set_option maxRecDepth 8000 in
/-- Claim C5, counterexample: from a row whose amount cell is the parenthesized
negative `"(2,500.00)"`, `parse_bank_statement` stores the record with
`amount = 2500` — the absolute value, not the claimed negated magnitude
(the sign is kept separately in `debit_credit = "DEBIT"`). -/
theorem c5_counterexample :
    parseBankRow c5Row = some c5Rec ∧ ¬ (c5Rec.amount < 0) := by
  constructor
  · simp +decide [parseBankRow, cleanDate, c5Row, c5Rec, cleanAmount, parseFloat, commaFix,
      decVal, trimWs, removeAll, removeAllGo, currencySymbols, splitComma]
  · rw [c5Rec]
    norm_num

set_option maxRecDepth 8000 in
/-- Claim C5, amended: every record `parse_bank_statement` stores carries
`amount = abs(clean_amount(cell))`, which is strictly positive, with the sign
recorded in `debit_credit` (`"DEBIT"` exactly when the normalized amount is
negative); `FinancialDataAnalyzer.clean_amount` does resolve parenthesized
forms to the signed negative value (−2500 for `"(2,500.00)"`), while
trailing-minus forms normalize to `0` in both parsers rather than to the
negated magnitude. -/
theorem c5_amended :
    (∀ (r : RawRow) (t : PTxn), parseBankRow r = some t →
        t.amount = |cleanAmount r.amount| ∧ 0 < t.amount
          ∧ (t.debitCredit = ("DEBIT") ↔ cleanAmount r.amount < 0))
    ∧ faCleanAmount (some ("(2,500.00)")) = -2500
    ∧ cleanAmount (some ("1234.56-")) = 0
    ∧ faCleanAmount (some ("1234.56-")) = 0 := by
  refine ⟨parseBankRow_fields, ?_, ?_, ?_⟩
  · simp +decide [faCleanAmount, parseFloat, decVal]
  · simp +decide [cleanAmount, parseFloat, commaFix, decVal, trimWs, removeAll, removeAllGo,
      currencySymbols, splitComma]
  · simp +decide [faCleanAmount, parseFloat, decVal]

set_option maxRecDepth 8000 in
/-- Witness for `c5_amended`: the record built from the parenthesized row
`c5Row` satisfies the stated field equations. -/
theorem c5_amended_witness :
    parseBankRow c5Row = some c5Rec
    ∧ (c5Rec.amount = |cleanAmount c5Row.amount| ∧ 0 < c5Rec.amount
        ∧ (c5Rec.debitCredit = ("DEBIT") ↔ cleanAmount c5Row.amount < 0)) := by
  have h : parseBankRow c5Row = some c5Rec := by
    simp +decide [parseBankRow, cleanDate, c5Row, c5Rec, cleanAmount, parseFloat, commaFix,
      decVal, trimWs, removeAll, removeAllGo, currencySymbols, splitComma]
  exact ⟨h, c5_amended.1 c5Row c5Rec h⟩
theorem c6_detection_order (dateOk numOk : String → Bool) (values : List String) (name : String)
    (h : values ≠ []) :
    detectColumnType dateOk numOk values name =
      specSelect (detectDateType dateOk values name) (detectNumberType numOk values name)
        (detectStringType values name) := by
  have hne : values.isEmpty = false := by
    cases values with
    | nil => exact absurd rfl h
    | cons a t => rfl
  simp only [detectColumnType, specSelect, pyMax3, hne, Bool.false_eq_true, if_false]
  by_cases h1 : 7/10 < (detectDateType dateOk values name).confidence
  · rw [if_pos h1, if_pos h1]
  · rw [if_neg h1, if_neg h1]
    by_cases h2 : 7/10 < (detectNumberType numOk values name).confidence
    · rw [if_pos h2, if_pos h2]
    · rw [if_neg h2, if_neg h2]
      have hd := le_of_not_lt h1
      have hn := le_of_not_lt h2
      by_cases h3 : 7/10 < (detectStringType values name).confidence
      · rw [if_pos h3]
        by_cases hc : (detectDateType dateOk values name).confidence
            < (detectNumberType numOk values name).confidence
        · rw [if_pos hc, if_pos (lt_of_le_of_lt hn h3)]
        · rw [if_neg hc, if_pos (lt_of_le_of_lt hd h3)]
      · rw [if_neg h3]
        by_cases hc : (detectDateType dateOk values name).confidence
            < (detectNumberType numOk values name).confidence
        · rw [if_pos hc]
          by_cases hcs : (detectNumberType numOk values name).confidence
              < (detectStringType values name).confidence
          · rw [if_pos hcs, if_neg (fun hand => absurd hand.1 (not_le.mpr hc)),
              if_neg (not_le.mpr hcs)]
          · rw [if_neg hcs, if_neg (fun hand => absurd hand.1 (not_le.mpr hc)),
              if_pos (le_of_not_lt hcs)]
        · rw [if_neg hc]
          by_cases hcs : (detectDateType dateOk values name).confidence
              < (detectStringType values name).confidence
          · rw [if_pos hcs, if_neg (fun hand => absurd hand.2 (not_le.mpr hcs)),
              if_neg (not_le.mpr (lt_of_le_of_lt (le_of_not_lt hc) hcs))]
          · rw [if_neg hcs, if_pos ⟨le_of_not_lt hc, le_of_not_lt hcs⟩]

/-- Claim C9: for identical column values, number-confidence equals
`min(parseSuccessRate + nameHintBonus, 1)` — bonus `0.3` for a name containing
a number keyword, `0` for a name containing none — so the keyword-named column
scores at least the uninformatively named one. -/
theorem c9_confidence_monotone (numOk : String → Bool) (values : List String) (n1 n2 : String)
    (hv : values ≠ []) (h1 : kwHit numberIndicators n1 = true)
    (h2 : kwHit numberIndicators n2 = false) :
    (detectNumberType numOk values n1).confidence = min (parseRate numOk values + 3/10) 1 ∧
    (detectNumberType numOk values n2).confidence = min (parseRate numOk values) 1 ∧
    (detectNumberType numOk values n2).confidence ≤ (detectNumberType numOk values n1).confidence := by
  have hlen : 0 < (values.take 20).length := by
    rw [List.length_take]
    have := List.length_pos.mpr hv
    omega
  have e1 : (detectNumberType numOk values n1).confidence
      = min (parseRate numOk values + 3/10) 1 := by
    simp only [detectNumberType, nameScoreOf, h1, if_pos hlen, if_true]
  have e2 : (detectNumberType numOk values n2).confidence = min (parseRate numOk values) 1 := by
    simp only [detectNumberType, nameScoreOf, h2, if_pos hlen, Bool.false_eq_true, if_false,
      add_zero]
  refine ⟨e1, e2, ?_⟩
  rw [e1, e2]
  exact min_le_min (by linarith) (le_refl 1)

/-- Witness for `c6_detection_order` at a concrete one-cell column. -/
theorem c6_detection_order_witness :
    ([("x")] : List String) ≠ []
    ∧ detectColumnType (fun _ => false) (fun _ => false) [("x")] ("col")
      = specSelect (detectDateType (fun _ => false) [("x")] ("col"))
          (detectNumberType (fun _ => false) [("x")] ("col"))
          (detectStringType [("x")] ("col")) :=
  ⟨by decide, c6_detection_order (fun _ => false) (fun _ => false) [("x")] ("col") (by decide)⟩

/-- Witness for `c9_confidence_monotone`: column values `["100"]` under the
names `"Amount"` and `"col"`. -/
theorem c9_confidence_monotone_witness :
    kwHit numberIndicators ("Amount") = true
    ∧ kwHit numberIndicators ("col") = false
    ∧ (detectNumberType (fun _ => true) [("100")] ("col")).confidence
        ≤ (detectNumberType (fun _ => true) [("100")] ("Amount")).confidence := by
  have h := c9_confidence_monotone (fun _ => true) [("100")] ("Amount") ("col")
    (by decide) (by decide) (by decide)
  exact ⟨by decide, by decide, h.2.2⟩

/-- Claim C7: a row whose date cell does not normalize or whose amount cell
cleans to the failure value 0 produces no record; dropping such a row leaves
the records of every other row of the sheet untouched; and no stored record
carries the sentinel amount 0 (every stored amount is strictly positive). -/
theorem c7_unparseable_row_dropped :
    (∀ r : RawRow, r.date = none ∨ cleanAmount r.amount = 0 → parseBankRow r = none)
    ∧ (∀ (xs ys : List RawRow) (r : RawRow), parseBankRow r = none →
        parseBankStatement (xs ++ r :: ys) = parseBankStatement (xs ++ ys))
    ∧ (∀ (rows : List RawRow) (t : PTxn), t ∈ parseBankStatement rows → 0 < t.amount) :=
  ⟨parseBankRow_drops, parseBank_drop_insensitive, parseBank_amount_pos⟩

set_option maxRecDepth 8000 in
/-- Witness for `c7_unparseable_row_dropped`: a row with amount cell `"abc"` is
dropped and does not disturb the surrounding rows. -/
theorem c7_witness :
    parseBankRow c7Bad = none
    ∧ parseBankStatement ([c7Good] ++ c7Bad :: []) = parseBankStatement ([c7Good] ++ []) := by
  have hbad : parseBankRow c7Bad = none := by
    simp +decide [parseBankRow, cleanDate, c7Bad, cleanAmount, parseFloat, commaFix,
      decVal, trimWs, removeAll, removeAllGo, currencySymbols, splitComma]
  exact ⟨hbad, c7_unparseable_row_dropped.2.1 [c7Good] [] c7Bad hbad⟩

/-- Claim C8, code bug: `DictionaryHashStorage.store_data` never clears
`hash_indexes`, so after storing a second table whose metadata no longer marks
column `cat` as string, the stale index of the first table answers the query
`cat == "a"` with the row positions of the old table — the returned row has
`cat = "b"`, while a fresh store of the same second table returns the correct
row `cat = "a"`.  Query results are thus not determined solely by the new
table, contradicting the claimed full replacement. -/
theorem c8_stale_index :
    hashQueryData (hashStoreData (hashStoreData c8Init c8Df1 c8Meta1) c8Df2 []) [c8Filter]
        = ⟨[("cat")], [[("b")]]⟩
    ∧ hashQueryData (hashStoreData c8Init c8Df2 []) [c8Filter] = ⟨[("cat")], [[("a")]]⟩
    ∧ (Table.mk [("cat")] [[("b")]] ≠ Table.mk [("cat")] [[("a")]]) :=
  ⟨by decide, by decide, by decide⟩

/-- Claim C10: on every backend, `query_data` with an empty filter list returns
the stored table unchanged: the pandas backend returns whatever table is
stored, the SQLite backend issues `SELECT *` with no WHERE clause, and the hash
backend keeps all row positions (stated for a nonempty stored table; on an
empty one it returns an empty frame). -/
theorem c10_empty_filters :
    (∀ (st : PandasStore) (t : Table), st.data = some t → pandasQueryData st [] = t)
    ∧ (∀ st : SqliteStore, sqliteQueryData st [] = st.table)
    ∧ (∀ st : HashStore, st.data.rows ≠ [] → hashQueryData st [] = st.data) :=
  ⟨pandasEmptyFilters, sqliteEmptyFilters, hashEmptyFilters⟩

/-- Witness for `c10_empty_filters` on a concrete one-row table in all three
backends. -/
theorem c10_empty_filters_witness :
    pandasQueryData w10Pandas [] = w10Tbl
    ∧ sqliteQueryData w10Sqlite [] = w10Tbl
    ∧ (w10Hash.data.rows ≠ [] ∧ hashQueryData w10Hash [] = w10Hash.data) := by
  have h3 : w10Hash.data.rows ≠ [] := by decide
  exact ⟨c10_empty_filters.1 w10Pandas w10Tbl rfl, c10_empty_filters.2.1 w10Sqlite,
    h3, c10_empty_filters.2.2 w10Hash h3⟩
